import Mathlib

/-!
Shallow embedding of the session/state engine of the `click` interactive
Kubernetes controller (`src/main.rs`), together with theorems about its
selection model, alias expansion, namespace continuity, cluster switching
and port-forward supervision.

The embedding translates `main.rs` directly.  Types that `main.rs` consumes
from sibling modules that are not part of the provided sources
(`kube.rs`, `config.rs`, `values.rs`, `command_processor.rs`) are modelled
from the specification and carry a doc comment saying so.
-/

namespace Click

/-- Modelled from the spec: a user-defined alias mapping a single token to an
expansion string (`config::Alias` lives outside the provided sources; the
field `alias` is a Lean keyword and is rendered `alias_name`). -/
structure Alias where
  alias_name : String
  expanded : String
deriving DecidableEq, Repr

/-- Modelled from the spec: item metadata as read by the selection model — a
mandatory name and, for namespaced kinds, an optional namespace
(`kube::Metadata` lives outside the provided sources; `namespace` is a Lean
keyword and is rendered `namespace_`). -/
structure Metadata where
  name : String
  namespace_ : Option String
deriving DecidableEq, Repr

/-- Modelled from the spec: a container spec, of which the selection model
reads only the name (`kube::ContainerSpec` lives outside the provided
sources). -/
structure ContainerSpec where
  name : String
deriving DecidableEq, Repr

/-- Modelled from the spec: a pod spec, of which the selection model reads
only the ordered container list (`kube::PodSpec` lives outside the provided
sources). -/
structure PodSpec where
  containers : List ContainerSpec
deriving DecidableEq, Repr

/-- Modelled from the spec: a pod item with metadata and spec. -/
structure Pod where
  metadata : Metadata
  spec : PodSpec
deriving DecidableEq, Repr

/-- Modelled from the spec: a node item; the selection model reads only its
metadata name, and nodes are not namespaced. -/
structure KNode where
  metadata : Metadata
deriving DecidableEq, Repr

/-- Modelled from the spec: a deployment item; the selection model reads its
metadata name and namespace. -/
structure Deployment where
  metadata : Metadata
deriving DecidableEq, Repr

/-- Modelled from the spec: a service item; the selection model reads its
metadata name and namespace. -/
structure KService where
  metadata : Metadata
deriving DecidableEq, Repr

/-- Modelled from the spec: a structured (JSON) item for the kinds whose
identity is resolved by path lookup rather than a fixed field; only the two
metadata paths read by the selection model are represented (`values.rs` lives
outside the provided sources). -/
structure KValue where
  metadata_name : Option String
  metadata_namespace : Option String
deriving DecidableEq, Repr

/-- Modelled from the spec: `values::val_str_opt`, looking up an optional
string at a JSON-pointer-style path, restricted to the two paths
`Env::set_current` uses. -/
def val_str_opt (path : String) (v : KValue) : Option String :=
  if path = "/metadata/name" then v.metadata_name
  else if path = "/metadata/namespace" then v.metadata_namespace
  else none

/-- Modelled from the spec: the most recent pod list fetch. -/
structure PodList where
  items : List Pod
deriving DecidableEq, Repr

/-- Modelled from the spec: the most recent node list fetch. -/
structure NodeList where
  items : List KNode
deriving DecidableEq, Repr

/-- Modelled from the spec: the most recent deployment list fetch. -/
structure DeploymentList where
  items : List Deployment
deriving DecidableEq, Repr

/-- Modelled from the spec: the most recent service list fetch. -/
structure ServiceList where
  items : List KService
deriving DecidableEq, Repr

/-- Modelled from the spec: the most recent replica-set list fetch
(structured items). -/
structure ReplicaSetList where
  items : List KValue
deriving DecidableEq, Repr

/-- Modelled from the spec: the most recent stateful-set list fetch
(structured items). -/
structure StatefulSetList where
  items : List KValue
deriving DecidableEq, Repr

/-- Modelled from the spec: the most recent config-map list fetch
(structured items). -/
structure ConfigMapList where
  items : List KValue
deriving DecidableEq, Repr

/-- Modelled from the spec: the most recent secret list fetch
(structured items). -/
structure SecretList where
  items : List KValue
deriving DecidableEq, Repr

/-- Modelled from the spec: the most recent job list fetch
(structured items). -/
structure JobList where
  items : List KValue
deriving DecidableEq, Repr

/-- An object we can have as a "current" thing (`KObj` in `main.rs`). -/
inductive KObj where
  | None : KObj
  | Pod (name : String) (containers : List String) : KObj
  | Node (name : String) : KObj
  | Deployment (name : String) : KObj
  | Service (name : String) : KObj
  | ReplicaSet (name : String) : KObj
  | StatefulSet (name : String) : KObj
  | ConfigMap (name : String) : KObj
  | Secret (name : String) : KObj
  | Job (name : String) : KObj
deriving DecidableEq, Repr

/-- The most recently recorded object list (`LastList` in `main.rs`). -/
inductive LastList where
  | None : LastList
  | PodList (pl : PodList) : LastList
  | NodeList (nl : NodeList) : LastList
  | DeploymentList (dl : DeploymentList) : LastList
  | ServiceList (sl : ServiceList) : LastList
  | ReplicaSetList (rsl : ReplicaSetList) : LastList
  | StatefulSetList (stfs : StatefulSetList) : LastList
  | ConfigMapList (cml : ConfigMapList) : LastList
  | SecretList (sl : SecretList) : LastList
  | JobList (jl : JobList) : LastList
deriving DecidableEq, Repr

/-- Modelled from the spec: a cluster reference — "a name plus whatever is
needed to issue authenticated calls"; the session engine reads only the name
(`kube::Kluster` lives outside the provided sources). -/
structure Kluster where
  name : String
deriving DecidableEq, Repr

/-- Modelled from the spec: the kubernetes configuration's context table;
resolving a context name either yields a cluster or fails (`config::Config`
lives outside the provided sources). -/
structure Config where
  contexts : String → Option Kluster

/-- Modelled from the spec: `Config::cluster_for_context`; a `none` result
stands for the lookup/load error case. -/
def cluster_for_context (c : Config) (cname : String) : Option Kluster :=
  c.contexts cname

/-- Modelled from the spec: the persisted click configuration; only the
fields the session engine reads or writes are represented (`config.rs` lives
outside the provided sources).  `namespace` and `context` mirror the
session's on every save. -/
structure ClickConfig where
  namespace_ : Option String
  context : Option String
  aliases : List Alias

/-- An ongoing port forward (`PortForward` in `main.rs`); the child process
handle and the shared output buffer are abstracted to plain data. -/
structure PortForward where
  child : Nat
  pod : String
  ports : List String
  output : String
deriving DecidableEq, Repr

/-- The result of one alias-expansion attempt (`ExpandedAlias` in
`main.rs`). -/
structure ExpandedAlias where
  expansion : Option Alias
  rest : String
deriving DecidableEq, Repr

/-- The repl environment (`Env` in `main.rs`).  Fields never read or written
by the operations the claims are about (editor/terminal settings, quit flag,
interrupt flag, temp dir, config path) are omitted; `namespace` is a Lean
keyword and is rendered `namespace_`. -/
structure Env where
  config : Config
  click_config : ClickConfig
  kluster : Option Kluster
  namespace_ : Option String
  current_object : KObj
  current_object_namespace : Option String
  last_objs : LastList
  port_forwards : List PortForward
  prompt : String

/-- The selected-object label shown in the prompt (`Env::set_prompt`'s third
field; ANSI colouring elided). -/
def kobj_label : KObj → String
  | KObj.None => "none"
  | KObj.Pod name _ => name
  | KObj.Node name => name
  | KObj.Deployment name => name
  | KObj.Service name => name
  | KObj.ReplicaSet name => name
  | KObj.StatefulSet name => name
  | KObj.ConfigMap name => name
  | KObj.Secret name => name
  | KObj.Job name => name

/-- `Env::set_prompt`: recompute the prompt from the cluster name, the
namespace and the selected object (ANSI colouring elided). -/
def set_prompt (env : Env) : Env :=
  { env with prompt :=
      "[" ++ (match env.kluster with
              | some k => k.name
              | none => "none") ++
      "] [" ++ (match env.namespace_ with
                | some n => n
                | none => "none") ++
      "] [" ++ kobj_label env.current_object ++ "] > " }

/-- `Env::save_click_config`: mirror the session's namespace and active
cluster name into the click config (the on-disk write is an external
effect). -/
def save_click_config (env : Env) : Env :=
  { env with click_config :=
      { env.click_config with
          namespace_ := env.namespace_
          context := env.kluster.map Kluster.name } }

/-- `Env::set_context`: with a name, resolve it (failure yields no active
cluster), persist, and recompute the prompt; with no name, do nothing. -/
def set_context (env : Env) (ctx : Option String) : Env :=
  match ctx with
  | some cname =>
      set_prompt (save_click_config
        { env with kluster := cluster_for_context env.config cname })
  | none => env

/-- `Env::clear_current`: empty the selection and recompute the prompt. -/
def clear_current (env : Env) : Env :=
  set_prompt { env with current_object := KObj.None }

/-- `Env::set_namespace`: clear the selection when both the session's current
namespace and the new one are defined and differ, then install the new
namespace and recompute the prompt. -/
def set_namespace (env : Env) (new_namespace : Option String) : Env :=
  let do_clear :=
    match env.namespace_, new_namespace with
    | some my_ns, some new_ns => my_ns != new_ns
    | _, _ => false
  let env' := if do_clear then clear_current env else env
  set_prompt { env' with namespace_ := new_namespace }

/-- `Env::alias_position`: the current position of the alias in the list, if
present. -/
def alias_position (env : Env) (a : String) : Option Nat :=
  env.click_config.aliases.findIdx? (fun al => al.alias_name == a)

/-- `Env::remove_alias`: remove the alias at its position (if any) and
persist; the boolean reports whether something was removed. -/
def remove_alias (env : Env) (a : String) : Env × Bool :=
  match alias_position env a with
  | some p =>
      (save_click_config
        { env with click_config :=
            { env.click_config with
                aliases := env.click_config.aliases.eraseIdx p } }, true)
  | none => (env, false)

/-- `Env::add_alias`: remove any existing alias with the same name, push the
new one, persist. -/
def add_alias (env : Env) (al : Alias) : Env :=
  let env1 := (remove_alias env al.alias_name).1
  save_click_config
    { env1 with click_config :=
        { env1.click_config with
            aliases := env1.click_config.aliases ++ [al] } }

/-- `Env::set_lastlist`: record the most recent list fetch, replacing any
previous one. -/
def set_lastlist (env : Env) (list : LastList) : Env :=
  { env with last_objs := list }

/-- The object/namespace part of `Env::set_current` (before the final
`set_prompt`): resolve a numeric selection against the recorded list. -/
def set_current_obj (env : Env) (num : Nat) : Env :=
  match env.last_objs with
  | LastList.None => env
  | LastList.PodList pl =>
      match pl.items[num]? with
      | some pod =>
          { env with
              current_object :=
                KObj.Pod pod.metadata.name
                  (pod.spec.containers.map (fun cspec => cspec.name))
              current_object_namespace := pod.metadata.namespace_ }
      | none => { env with current_object := KObj.None }
  | LastList.NodeList nl =>
      match (nl.items[num]?).map (fun n => n.metadata.name) with
      | some name =>
          { env with
              current_object := KObj.Node name
              current_object_namespace := none }
      | none => { env with current_object := KObj.None }
  | LastList.DeploymentList dl =>
      match dl.items[num]? with
      | some dep =>
          { env with
              current_object := KObj.Deployment dep.metadata.name
              current_object_namespace := dep.metadata.namespace_ }
      | none => { env with current_object := KObj.None }
  | LastList.ServiceList sl =>
      match sl.items[num]? with
      | some service =>
          { env with
              current_object := KObj.Service service.metadata.name
              current_object_namespace := service.metadata.namespace_ }
      | none => { env with current_object := KObj.None }
  | LastList.ReplicaSetList rsl =>
      match rsl.items[num]? with
      | some replicaset =>
          match val_str_opt "/metadata/name" replicaset with
          | some name =>
              { env with
                  current_object := KObj.ReplicaSet name
                  current_object_namespace :=
                    val_str_opt "/metadata/namespace" replicaset }
          | none => { env with current_object := KObj.None }
      | none => { env with current_object := KObj.None }
  | LastList.StatefulSetList stfs =>
      match stfs.items[num]? with
      | some statefulset =>
          match val_str_opt "/metadata/name" statefulset with
          | some name =>
              { env with
                  current_object := KObj.StatefulSet name
                  current_object_namespace :=
                    val_str_opt "/metadata/namespace" statefulset }
          | none => { env with current_object := KObj.None }
      | none => { env with current_object := KObj.None }
  | LastList.ConfigMapList cml =>
      match cml.items[num]? with
      | some cm =>
          match val_str_opt "/metadata/name" cm with
          | some name =>
              { env with
                  current_object := KObj.ConfigMap name
                  current_object_namespace :=
                    val_str_opt "/metadata/namespace" cm }
          | none => { env with current_object := KObj.None }
      | none => { env with current_object := KObj.None }
  | LastList.SecretList sl =>
      match sl.items[num]? with
      | some secret =>
          match val_str_opt "/metadata/name" secret with
          | some name =>
              { env with
                  current_object := KObj.Secret name
                  current_object_namespace :=
                    val_str_opt "/metadata/namespace" secret }
          | none => { env with current_object := KObj.None }
      | none => { env with current_object := KObj.None }
  | LastList.JobList jl =>
      match jl.items[num]? with
      | some job =>
          match val_str_opt "/metadata/name" job with
          | some name =>
              { env with
                  current_object := KObj.Job name
                  current_object_namespace :=
                    val_str_opt "/metadata/namespace" job }
          | none => { env with current_object := KObj.None }
      | none => { env with current_object := KObj.None }

/-- `Env::set_current`: the selection update followed by the prompt
recomputation. -/
def set_current (env : Env) (num : Nat) : Env :=
  set_prompt (set_current_obj env num)

/-- `Env::current_pod`: the selected pod's name, if a pod is selected. -/
def current_pod (env : Env) : Option String :=
  match env.current_object with
  | KObj.Pod name _ => some name
  | _ => none

/-- `Env::stop_port_forward`: in range, remove the task at position `i` and
request termination of its process (the kill outcome is the external
collaborator `kill`); out of range, leave everything as is and report
success. -/
def stop_port_forward (kill : PortForward → Except String Unit) (env : Env)
    (i : Nat) : Env × Except String Unit :=
  if h : i < env.port_forwards.length then
    ({ env with port_forwards := env.port_forwards.eraseIdx i },
     kill (env.port_forwards.get ⟨i, h⟩))
  else
    (env, Except.ok ())

/-- The first whitespace-delimited token of a line (the slice
`line[0..pos]` in `Env::try_expand_alias`). -/
def first_word (line : String) : String :=
  String.mk (line.toList.takeWhile (fun c => !c.isWhitespace))

/-- The remainder of a line after its first token (the slice `line[pos..]`
in `Env::try_expand_alias`), including the leading whitespace run if any. -/
def rest_after_word (line : String) : String :=
  String.mk (line.toList.dropWhile (fun c => !c.isWhitespace))

/-- `Env::try_expand_alias`: split off the first word; unless the previous
expanded word equals it (the loop guard), return the first alias whose name
matches together with the rest of the line; otherwise report no expansion
with `rest` the whole line. -/
def try_expand_alias (env : Env) (line : String) (prev_word : Option String) :
    ExpandedAlias :=
  let word := first_word line
  if (prev_word.filter (fun pw => pw == word)).isNone then
    match env.click_config.aliases.find? (fun a => a.alias_name == word) with
    | some a => { expansion := some a, rest := rest_after_word line }
    | none => { expansion := none, rest := line }
  else
    { expansion := none, rest := line }

/-- Modelled from the spec: one iteration of the command processor's
expansion loop (`command_processor.rs` lives outside the provided sources):
a successful expansion replaces the first word by its expansion and is fed
back in, carrying the newly-expanded word as the previous word; `none` means
the loop stops. -/
def expand_step (env : Env) (st : String × Option String) :
    Option (String × Option String) :=
  let ea := try_expand_alias env st.1 st.2
  match ea.expansion with
  | some a => some (a.expanded ++ ea.rest, some a.alias_name)
  | none => none

/-- Modelled from the spec: `n` iterations of the caller's expansion loop;
`none` means the loop has stopped. -/
def expand_run (env : Env) : Nat → Option (String × Option String) →
    Option (String × Option String)
  | 0, st => st
  | n + 1, st => expand_run env n (st.bind (expand_step env))

/-- The caller's expansion loop, started on `line` with no previous word,
stops within `n` iterations. -/
def expand_halts (env : Env) (line : String) (n : Nat) : Prop :=
  expand_run env n (some (line, none)) = none

/-- A minimal concrete environment used by concrete instances of the
theorems below. -/
def mkTestEnv (aliases : List Alias) : Env :=
  { config := { contexts := fun _ => none }
    click_config := { namespace_ := none, context := none, aliases := aliases }
    kluster := none
    namespace_ := none
    current_object := KObj.None
    current_object_namespace := none
    last_objs := LastList.None
    port_forwards := []
    prompt := "" }

/-- Recomputing the prompt does not change the selected object. -/
@[simp] lemma set_prompt_current_object (env : Env) :
    (set_prompt env).current_object = env.current_object := rfl

/-- Recomputing the prompt does not change the selected object's namespace
field. -/
@[simp] lemma set_prompt_current_object_namespace (env : Env) :
    (set_prompt env).current_object_namespace =
      env.current_object_namespace := rfl

/-- Recomputing the prompt does not change the recorded list. -/
@[simp] lemma set_prompt_last_objs (env : Env) :
    (set_prompt env).last_objs = env.last_objs := rfl

/-- Recomputing the prompt does not change the session namespace. -/
@[simp] lemma set_prompt_namespace (env : Env) :
    (set_prompt env).namespace_ = env.namespace_ := rfl

/-- Recomputing the prompt does not change the alias list. -/
@[simp] lemma set_prompt_aliases (env : Env) :
    (set_prompt env).click_config.aliases = env.click_config.aliases := rfl

/-- Saving the click config does not change the alias list. -/
@[simp] lemma save_click_config_aliases (env : Env) :
    (save_click_config env).click_config.aliases =
      env.click_config.aliases := rfl

/-- C10: calling `set_context` with no name supplied is a complete no-op —
no field of the session changes, nothing is persisted, the prompt is not
recomputed. -/
theorem C10_set_context_none_noop (env : Env) :
    set_context env none = env := rfl

/-- C5: if the previously-expanded word is defined and equals the first
whitespace-delimited token of the line, `try_expand_alias` returns no
expansion and `rest` is the original line unchanged. -/
theorem C5_loop_guard_identity (env : Env) (line : String) :
    try_expand_alias env line (some (first_word line)) =
      { expansion := none, rest := line } := by
  simp [try_expand_alias, Option.filter]

/-- C8: when the external lookup of the named cluster fails, `set_context`
sets "no active cluster" and leaves the namespace, the selection and its
namespace field, the recorded list, the aliases and the port-forward tasks
exactly as they were. -/
theorem C8_failed_switch_frame (env : Env) (cname : String)
    (h : cluster_for_context env.config cname = none) :
    (set_context env (some cname)).kluster = none ∧
    (set_context env (some cname)).namespace_ = env.namespace_ ∧
    (set_context env (some cname)).current_object = env.current_object ∧
    (set_context env (some cname)).current_object_namespace =
      env.current_object_namespace ∧
    (set_context env (some cname)).last_objs = env.last_objs ∧
    (set_context env (some cname)).click_config.aliases =
      env.click_config.aliases ∧
    (set_context env (some cname)).port_forwards = env.port_forwards := by
  simp [set_context, save_click_config, set_prompt, h]

/-- A concrete session exercising `C8_failed_switch_frame`: in the test
environment every lookup fails. -/
theorem C8_witness :
    cluster_for_context (mkTestEnv []).config "ctx1" = none ∧
    ((set_context (mkTestEnv []) (some "ctx1")).kluster = none ∧
     (set_context (mkTestEnv []) (some "ctx1")).namespace_ =
       (mkTestEnv []).namespace_ ∧
     (set_context (mkTestEnv []) (some "ctx1")).current_object =
       (mkTestEnv []).current_object ∧
     (set_context (mkTestEnv []) (some "ctx1")).current_object_namespace =
       (mkTestEnv []).current_object_namespace ∧
     (set_context (mkTestEnv []) (some "ctx1")).last_objs =
       (mkTestEnv []).last_objs ∧
     (set_context (mkTestEnv []) (some "ctx1")).click_config.aliases =
       (mkTestEnv []).click_config.aliases ∧
     (set_context (mkTestEnv []) (some "ctx1")).port_forwards =
       (mkTestEnv []).port_forwards) :=
  ⟨rfl, C8_failed_switch_frame (mkTestEnv []) "ctx1" rfl⟩

/-- A kill collaborator that always reports success. -/
def kill_ok : PortForward → Except String Unit := fun _ => Except.ok ()

/-- A first concrete port-forward task. -/
def pfA : PortForward :=
  { child := 1, pod := "p0", ports := ["8080:80"], output := "" }

/-- A second concrete port-forward task. -/
def pfB : PortForward :=
  { child := 2, pod := "p1", ports := ["9090:90"], output := "" }

/-- A concrete environment tracking two port-forward tasks. -/
def envPF : Env := { mkTestEnv [] with port_forwards := [pfA, pfB] }

/-- C7: stopping an out-of-range port-forward index changes nothing and
reports success; stopping an in-range index removes exactly the task at that
position, so the active count decreases by one. -/
theorem C7_stop_port_forward (kill : PortForward → Except String Unit)
    (env : Env) (i : Nat) :
    (env.port_forwards.length ≤ i →
      stop_port_forward kill env i = (env, Except.ok ())) ∧
    (i < env.port_forwards.length →
      (stop_port_forward kill env i).1.port_forwards =
        env.port_forwards.take i ++ env.port_forwards.drop (i + 1) ∧
      (stop_port_forward kill env i).1.port_forwards.length + 1 =
        env.port_forwards.length) := by
  constructor
  · intro h
    have h' : ¬ i < env.port_forwards.length := by omega
    simp [stop_port_forward, h']
  · intro h
    simp only [stop_port_forward, h, dif_pos]
    refine ⟨List.eraseIdx_eq_take_drop_succ _ _, ?_⟩
    rw [List.length_eraseIdx_of_lt h]
    omega

/-- Concrete instances of `C7_stop_port_forward`: an out-of-range stop on an
empty task set and an in-range stop on a two-task set. -/
theorem C7_witness :
    (stop_port_forward kill_ok (mkTestEnv []) 3 =
      (mkTestEnv [], Except.ok ())) ∧
    ((stop_port_forward kill_ok envPF 0).1.port_forwards =
        envPF.port_forwards.take 0 ++ envPF.port_forwards.drop 1 ∧
      (stop_port_forward kill_ok envPF 0).1.port_forwards.length + 1 =
        envPF.port_forwards.length) :=
  ⟨(C7_stop_port_forward kill_ok (mkTestEnv []) 3).1 (by decide),
   (C7_stop_port_forward kill_ok envPF 0).2 (by decide)⟩

/-- Whether a selected object is a node. -/
def is_node : KObj → Bool
  | KObj.Node _ => true
  | _ => false

/-- The case analysis behind the clearing claims: whenever `set_current_obj`
leaves the selection empty, it has not touched the namespace field. -/
lemma set_current_obj_none_ns (env : Env) (num : Nat)
    (h : (set_current_obj env num).current_object = KObj.None) :
    (set_current_obj env num).current_object_namespace =
      env.current_object_namespace := by
  rcases hl : env.last_objs with _ | pl | nl | dl | sl | rsl | stfs | cml | sec | jl <;>
    simp only [set_current_obj, hl] at h ⊢
  · cases hg : pl.items[num]? with
    | some pod => simp only [hg] at h; simp at h
    | none => simp only [hg]
  · cases hg : (nl.items[num]?).map (fun n => n.metadata.name) with
    | some name => simp only [hg] at h; simp at h
    | none => simp only [hg]
  · cases hg : dl.items[num]? with
    | some dep => simp only [hg] at h; simp at h
    | none => simp only [hg]
  · cases hg : sl.items[num]? with
    | some service => simp only [hg] at h; simp at h
    | none => simp only [hg]
  · cases hg : rsl.items[num]? with
    | some v =>
        simp only [hg] at h ⊢
        cases hn : val_str_opt "/metadata/name" v with
        | some name => simp only [hn] at h; simp at h
        | none => simp only [hn]
    | none => simp only [hg]
  · cases hg : stfs.items[num]? with
    | some v =>
        simp only [hg] at h ⊢
        cases hn : val_str_opt "/metadata/name" v with
        | some name => simp only [hn] at h; simp at h
        | none => simp only [hn]
    | none => simp only [hg]
  · cases hg : cml.items[num]? with
    | some v =>
        simp only [hg] at h ⊢
        cases hn : val_str_opt "/metadata/name" v with
        | some name => simp only [hn] at h; simp at h
        | none => simp only [hn]
    | none => simp only [hg]
  · cases hg : sec.items[num]? with
    | some v =>
        simp only [hg] at h ⊢
        cases hn : val_str_opt "/metadata/name" v with
        | some name => simp only [hn] at h; simp at h
        | none => simp only [hn]
    | none => simp only [hg]
  · cases hg : jl.items[num]? with
    | some v =>
        simp only [hg] at h ⊢
        cases hn : val_str_opt "/metadata/name" v with
        | some name => simp only [hn] at h; simp at h
        | none => simp only [hn]
    | none => simp only [hg]

/-- C9: every operation that empties the selection — `clear_current`, and
`set_current` whenever it results in an empty selection (out-of-range index,
item missing its name, no recorded list) — leaves the `current_object_namespace`
field at its previous value rather than resetting it. -/
theorem C9_clear_preserves_namespace_field (env : Env) (num : Nat) :
    (clear_current env).current_object_namespace =
      env.current_object_namespace ∧
    ((set_current env num).current_object = KObj.None →
      (set_current env num).current_object_namespace =
        env.current_object_namespace) := by
  refine ⟨rfl, fun h => ?_⟩
  have h' : (set_current_obj env num).current_object = KObj.None := h
  exact set_current_obj_none_ns env num h'

/-- A concrete environment with a pod selected in namespace `ns1`. -/
def envPodSel : Env :=
  { mkTestEnv [] with
      current_object := KObj.Pod "p1" ["c1"]
      current_object_namespace := some "ns1" }

/-- Concrete instance of `C9_clear_preserves_namespace_field`: clearing a pod
selection, and an out-of-range `set_current` with no recorded list, both keep
the stale namespace field `ns1`. -/
theorem C9_witness :
    (clear_current envPodSel).current_object_namespace =
      envPodSel.current_object_namespace ∧
    ((set_current envPodSel 0).current_object = KObj.None →
      (set_current envPodSel 0).current_object_namespace =
        envPodSel.current_object_namespace) :=
  C9_clear_preserves_namespace_field envPodSel 0

/-- The data-model invariant claimed by the spec: the namespace field on the
selection is `none` exactly when the selection is empty or is a node. -/
def selection_namespace_invariant (env : Env) : Prop :=
  env.current_object_namespace = none ↔
    (env.current_object = KObj.None ∨ is_node env.current_object = true)

/-- C3, counterexample: `clear_current` does not preserve the claimed
invariant — starting from a pod selected in namespace `ns1` (where the
invariant holds), clearing empties the selection but leaves the namespace
field at `some "ns1"`. -/
theorem C3_counterexample :
    selection_namespace_invariant envPodSel ∧
    ¬ selection_namespace_invariant (clear_current envPodSel) := by
  refine ⟨?_, ?_⟩ <;> unfold selection_namespace_invariant <;> decide

/-- C3, amended: the invariant holds in the direction the selection
operation itself establishes — after `set_current`, a selected node always
has namespace field `none`.  (The "empty selection" half fails because
clearing leaves the field at its previous value.) -/
theorem C3_amended_node_namespace (env : Env) (num : Nat)
    (h0 : env.last_objs ≠ LastList.None)
    (h : is_node (set_current env num).current_object = true) :
    (set_current env num).current_object_namespace = none := by
  have h' : is_node (set_current_obj env num).current_object = true := h
  have hgoal : (set_current_obj env num).current_object_namespace = none := by
    rcases hl : env.last_objs with _ | pl | nl | dl | sl | rsl | stfs | cml | sec | jl <;>
      simp only [set_current_obj, hl] at h' ⊢
    · exact absurd hl h0
    · cases hg : pl.items[num]? with
      | some pod => simp only [hg] at h'; simp [is_node] at h'
      | none => simp only [hg] at h'; simp [is_node] at h'
    · cases hg : (nl.items[num]?).map (fun n => n.metadata.name) with
      | some name => simp only [hg]
      | none => simp only [hg] at h'; simp [is_node] at h'
    · cases hg : dl.items[num]? with
      | some dep => simp only [hg] at h'; simp [is_node] at h'
      | none => simp only [hg] at h'; simp [is_node] at h'
    · cases hg : sl.items[num]? with
      | some service => simp only [hg] at h'; simp [is_node] at h'
      | none => simp only [hg] at h'; simp [is_node] at h'
    · cases hg : rsl.items[num]? with
      | some v =>
          simp only [hg] at h'
          cases hn : val_str_opt "/metadata/name" v with
          | some name => simp only [hn] at h'; simp [is_node] at h'
          | none => simp only [hn] at h'; simp [is_node] at h'
      | none => simp only [hg] at h'; simp [is_node] at h'
    · cases hg : stfs.items[num]? with
      | some v =>
          simp only [hg] at h'
          cases hn : val_str_opt "/metadata/name" v with
          | some name => simp only [hn] at h'; simp [is_node] at h'
          | none => simp only [hn] at h'; simp [is_node] at h'
      | none => simp only [hg] at h'; simp [is_node] at h'
    · cases hg : cml.items[num]? with
      | some v =>
          simp only [hg] at h'
          cases hn : val_str_opt "/metadata/name" v with
          | some name => simp only [hn] at h'; simp [is_node] at h'
          | none => simp only [hn] at h'; simp [is_node] at h'
      | none => simp only [hg] at h'; simp [is_node] at h'
    · cases hg : sec.items[num]? with
      | some v =>
          simp only [hg] at h'
          cases hn : val_str_opt "/metadata/name" v with
          | some name => simp only [hn] at h'; simp [is_node] at h'
          | none => simp only [hn] at h'; simp [is_node] at h'
      | none => simp only [hg] at h'; simp [is_node] at h'
    · cases hg : jl.items[num]? with
      | some v =>
          simp only [hg] at h'
          cases hn : val_str_opt "/metadata/name" v with
          | some name => simp only [hn] at h'; simp [is_node] at h'
          | none => simp only [hn] at h'; simp [is_node] at h'
      | none => simp only [hg] at h'; simp [is_node] at h'
  exact hgoal

/-- A concrete environment with a recorded single-node list. -/
def envNodeList : Env :=
  { mkTestEnv [] with
      current_object_namespace := some "stale"
      last_objs :=
        LastList.NodeList
          { items := [{ metadata := { name := "n0", namespace_ := none } }] } }

/-- Concrete instance of `C3_amended_node_namespace`: selecting the node at
index 0 yields a node selection whose namespace field is `none`, even though
the field previously held a stale value. -/
theorem C3_witness :
    envNodeList.last_objs ≠ LastList.None ∧
    is_node (set_current envNodeList 0).current_object = true ∧
    (set_current envNodeList 0).current_object_namespace = none :=
  ⟨by decide, by decide,
   C3_amended_node_namespace envNodeList 0 (by decide) (by decide)⟩

/-- A concrete environment with namespace `a` and a node (namespace-less
object) selected. -/
def envNodeSel : Env :=
  { mkTestEnv [] with
      namespace_ := some "a"
      current_object := KObj.Node "n1"
      current_object_namespace := none }

/-- C1, counterexample: switching namespace from `a` to `b` while a node is
selected (so the Selected Object's namespace is undefined) clears the
selection, contradicting the claim that it would be left intact —
`set_namespace` compares the session's namespace, not the selection's. -/
theorem C1_counterexample :
    envNodeSel.namespace_ = some "a" ∧
    envNodeSel.current_object = KObj.Node "n1" ∧
    envNodeSel.current_object_namespace = none ∧
    (set_namespace envNodeSel (some "b")).current_object = KObj.None := by
  refine ⟨rfl, rfl, rfl, ?_⟩
  decide

/-- C1, amended: a namespace change to a namespace that is defined and
different from the *session's* currently defined namespace clears the
Selected Object to empty, whatever the selection's own namespace; if either
the session's namespace or the new namespace is undefined, the selection is
left untouched. -/
theorem C1_amended_namespace_continuity (env : Env) (new_ns : Option String) :
    ((∃ a b, env.namespace_ = some a ∧ new_ns = some b ∧ a ≠ b) →
      (set_namespace env new_ns).current_object = KObj.None) ∧
    ((env.namespace_ = none ∨ new_ns = none) →
      (set_namespace env new_ns).current_object = env.current_object) := by
  constructor
  · rintro ⟨a, b, ha, hb, hab⟩
    have hne : (a != b) = true := by simp [bne_iff_ne, hab]
    simp [set_namespace, ha, hb, hne, clear_current]
  · rintro (h | h)
    · simp [set_namespace, h]
    · cases hm : env.namespace_ <;> simp [set_namespace, h, hm]

/-- A concrete environment with namespace `a` and a pod of namespace `a`
selected. -/
def envPodA : Env :=
  { mkTestEnv [] with
      namespace_ := some "a"
      current_object := KObj.Pod "p0" ["c0"]
      current_object_namespace := some "a" }

/-- Concrete instances of `C1_amended_namespace_continuity`: switching from
namespace `a` to `b` clears a pod selection, and switching to `b` with no
session namespace set leaves the selection alone. -/
theorem C1_witness :
    (set_namespace envPodA (some "b")).current_object = KObj.None ∧
    (set_namespace (mkTestEnv []) (some "b")).current_object =
      (mkTestEnv []).current_object :=
  ⟨(C1_amended_namespace_continuity envPodA (some "b")).1
      ⟨"a", "b", rfl, rfl, by decide⟩,
   (C1_amended_namespace_continuity (mkTestEnv []) (some "b")).2
      (Or.inl rfl)⟩

/-- Removal of the first element satisfying a predicate — the recursive
description of the position-then-remove idiom of `Env::remove_alias`. -/
def eraseFirstP (p : α → Bool) : List α → List α
  | [] => []
  | a :: t => if p a then t else a :: eraseFirstP p t

/-- If nothing satisfies `p`, removing the first satisfier does nothing. -/
lemma eraseFirstP_of_findIdx_none (p : α → Bool) (l : List α)
    (h : l.findIdx? p = none) : eraseFirstP p l = l := by
  induction l with
  | nil => rfl
  | cons a t ih =>
    rw [List.findIdx?_cons] at h
    by_cases hp : p a
    · simp [hp] at h
    · rw [if_neg (by simp [hp]), List.findIdx?_succ, Option.map_eq_none'] at h
      simp [eraseFirstP, hp, ih h]

/-- Removing the element at the index found by `findIdx?` is removal of the
first satisfier. -/
lemma eraseIdx_findIdx (p : α → Bool) (l : List α) (i : Nat)
    (h : l.findIdx? p = some i) : l.eraseIdx i = eraseFirstP p l := by
  induction l generalizing i with
  | nil => simp [List.findIdx?_nil] at h
  | cons a t ih =>
    rw [List.findIdx?_cons] at h
    by_cases hp : p a
    · rw [if_pos (by simp [hp])] at h
      cases h
      simp [eraseFirstP, hp]
    · rw [if_neg (by simp [hp]), List.findIdx?_succ, Option.map_eq_some'] at h
      obtain ⟨j, hj, hij⟩ := h
      subst hij
      simp [eraseFirstP, hp, List.eraseIdx_cons_succ, ih j hj]

/-- `Env::remove_alias` leaves the alias list with the first alias of that
name removed. -/
lemma remove_alias_aliases (env : Env) (n : String) :
    ((remove_alias env n).1).click_config.aliases =
      eraseFirstP (fun al => al.alias_name == n) env.click_config.aliases := by
  unfold remove_alias alias_position
  cases hf : env.click_config.aliases.findIdx? (fun al => al.alias_name == n) with
  | some p =>
      simp only [hf, save_click_config_aliases]
      exact eraseIdx_findIdx _ _ _ hf
  | none =>
      simp only [hf]
      exact (eraseFirstP_of_findIdx_none _ _ hf).symm

/-- `Env::add_alias` leaves the alias list with the first same-named alias
removed and the new alias pushed at the end. -/
lemma add_alias_aliases (env : Env) (al : Alias) :
    (add_alias env al).click_config.aliases =
      eraseFirstP (fun a => a.alias_name == al.alias_name)
        env.click_config.aliases ++ [al] := by
  unfold add_alias
  rw [save_click_config_aliases]
  simp only []
  rw [remove_alias_aliases]

/-- If the list holds at most one satisfier of `p`, removing the first one
leaves none. -/
lemma filter_eraseFirstP (p : α → Bool) (l : List α)
    (h : (l.filter p).length ≤ 1) : (eraseFirstP p l).filter p = [] := by
  induction l with
  | nil => rfl
  | cons a t ih =>
    by_cases hp : p a
    · rw [List.filter_cons_of_pos hp] at h
      have h0 : (t.filter p).length = 0 := by
        simp only [List.length_cons] at h
        omega
      have ht : t.filter p = [] := List.length_eq_zero.mp h0
      simp [eraseFirstP, hp, ht]
    · rw [List.filter_cons_of_neg hp] at h
      simp [eraseFirstP, hp, List.filter_cons_of_neg hp, ih h]

/-- Removing the first satisfier from a satisfier-free list extended by one
satisfier recovers the original list. -/
lemma eraseFirstP_append_singleton (p : α → Bool) (l : List α) (x : α)
    (hl : l.filter p = []) (hx : p x = true) :
    eraseFirstP p (l ++ [x]) = l := by
  induction l with
  | nil => simp [eraseFirstP, hx]
  | cons a t ih =>
    by_cases hp : p a
    · simp [List.filter_cons_of_pos hp] at hl
    · rw [List.filter_cons_of_neg hp] at hl
      simp [eraseFirstP, hp, ih hl]

/-- The number of aliases with the given name. -/
def count_alias (l : List Alias) (n : String) : Nat :=
  (l.filter (fun a => a.alias_name == n)).length

/-- C6: starting from an alias set holding at most one alias of the given
name (the data-model invariant), `add(name, e1)` followed by `add(name, e2)`
leaves exactly one alias of that name, and its expansion is `e2`. -/
theorem C6_add_alias_upsert (env : Env) (n e1 e2 : String)
    (h : count_alias env.click_config.aliases n ≤ 1) :
    ((add_alias (add_alias env { alias_name := n, expanded := e1 })
        { alias_name := n, expanded := e2 }).click_config.aliases.filter
      (fun a => a.alias_name == n)) =
      [{ alias_name := n, expanded := e2 }] := by
  have h1 := add_alias_aliases env { alias_name := n, expanded := e1 }
  have h2 := add_alias_aliases (add_alias env { alias_name := n, expanded := e1 })
      { alias_name := n, expanded := e2 }
  rw [h2, h1]
  have hfil : (eraseFirstP (fun a => a.alias_name == n)
      env.click_config.aliases).filter (fun a => a.alias_name == n) = [] :=
    filter_eraseFirstP _ _ h
  rw [eraseFirstP_append_singleton _ _ _ hfil (by simp)]
  rw [List.filter_append, hfil]
  simp

/-- Concrete instance of `C6_add_alias_upsert`: upserting `g` twice over a
set already holding a `g` alias leaves exactly the second expansion. -/
theorem C6_witness :
    count_alias (mkTestEnv [{ alias_name := "g", expanded := "get" }]).click_config.aliases "g" ≤ 1 ∧
    ((add_alias (add_alias (mkTestEnv [{ alias_name := "g", expanded := "get" }])
        { alias_name := "g", expanded := "get pods" })
        { alias_name := "g", expanded := "get services" }).click_config.aliases.filter
      (fun a => a.alias_name == "g")) =
      [{ alias_name := "g", expanded := "get services" }] :=
  ⟨by decide,
   C6_add_alias_upsert (mkTestEnv [{ alias_name := "g", expanded := "get" }])
     "g" "get pods" "get services" (by decide)⟩

/-- Unrolling the expansion loop from the far end: running `n + 1` steps is
running `n` steps and then one more. -/
lemma expand_run_succ (env : Env) (n : Nat)
    (st : Option (String × Option String)) :
    expand_run env (n + 1) st = (expand_run env n st).bind (expand_step env) := by
  induction n generalizing st with
  | zero => rfl
  | succ k ih =>
    show expand_run env (k + 1) (st.bind (expand_step env)) =
      (expand_run env (k + 1) st).bind (expand_step env)
    rw [ih, expand_run]

/-- An environment holding the two-alias cycle `a → b`, `b → a`. -/
def cycleEnv : Env :=
  mkTestEnv [{ alias_name := "a", expanded := "b" },
             { alias_name := "b", expanded := "a" }]

/-- Under the cycle aliases, the loop state starting from line `a` is forever
one of three live states. -/
lemma cycle_inv (n : Nat) :
    expand_run cycleEnv n (some ("a", none)) = some ("a", none) ∨
    expand_run cycleEnv n (some ("a", none)) = some ("b", some "a") ∨
    expand_run cycleEnv n (some ("a", none)) = some ("a", some "b") := by
  induction n with
  | zero => left; rfl
  | succ k ih =>
    rw [expand_run_succ]
    rcases ih with h | h | h <;> rw [h]
    · right; left; decide
    · right; right; decide
    · right; left; decide

/-- C2, counterexample: with the finite alias set `{a → b, b → a}` the
caller's repeated application of `try_expand_alias` on the line `a` never
stops — the single-previous-word loop guard does not fire on a cycle of
length two, so the number of productive expansions is unbounded. -/
theorem C2_counterexample : ¬ ∃ n, expand_halts cycleEnv "a" n := by
  rintro ⟨n, hn⟩
  unfold expand_halts at hn
  rcases cycle_inv n with h | h | h <;> rw [h] at hn <;> exact Option.noConfusion hn

/-- Heads of `dropWhile` results falsify the predicate. -/
lemma dropWhile_head_not (p : α → Bool) (l : List α) (c : α) (cs : List α)
    (h : l.dropWhile p = c :: cs) : p c = false := by
  induction l with
  | nil => simp at h
  | cons a t ih =>
    rw [List.dropWhile_cons] at h
    by_cases hp : p a
    · rw [if_pos hp] at h
      exact ih h
    · rw [if_neg hp] at h
      cases h
      simpa using hp

/-- The rest of a line after its first word is empty or starts with
whitespace. -/
lemma rest_after_word_ws (line : String) :
    rest_after_word line = "" ∨
    ∃ c cs, (rest_after_word line).toList = c :: cs ∧ c.isWhitespace = true := by
  unfold rest_after_word
  cases hd : line.toList.dropWhile (fun c => !c.isWhitespace) with
  | nil => left; rfl
  | cons c cs =>
    right
    refine ⟨c, cs, rfl, ?_⟩
    have hc := dropWhile_head_not _ _ _ _ hd
    simpa using hc

/-- `takeWhile` ignores a suffix that is empty or starts with a predicate
failure. -/
lemma takeWhile_append_stop (p : α → Bool) (l₁ l₂ : List α)
    (h : l₂ = [] ∨ ∃ c cs, l₂ = c :: cs ∧ p c = false) :
    (l₁ ++ l₂).takeWhile p = l₁.takeWhile p := by
  induction l₁ with
  | nil =>
    rcases h with h | ⟨c, cs, h, hc⟩ <;> subst h
    · rfl
    · simp [List.takeWhile_cons, hc]
  | cons a t ih =>
    by_cases hp : p a <;> simp [List.takeWhile_cons, hp, ih]

/-- The first word of a line extended by its (whitespace-led) rest is the
first word of the line. -/
lemma first_word_append (e r : String)
    (h : r = "" ∨ ∃ c cs, r.toList = c :: cs ∧ c.isWhitespace = true) :
    first_word (e ++ r) = first_word e := by
  unfold first_word
  have happ : (e ++ r).toList = e.toList ++ r.toList := rfl
  rw [happ]
  congr 1
  apply takeWhile_append_stop
  rcases h with h | ⟨c, cs, hc, hws⟩
  · left
    rw [h]
    rfl
  · right
    exact ⟨c, cs, hc, by simp [hws]⟩

/-- The alias set is "single-step guarded": each alias's expansion either
begins with the alias's own name, or begins with a word that is no alias's
name at all. -/
def guarded_aliases (aliases : List Alias) : Prop :=
  ∀ a ∈ aliases, first_word a.expanded = a.alias_name ∨
    ∀ b ∈ aliases, b.alias_name ≠ first_word a.expanded

/-- A successful expansion step decomposes into the alias found and the
rest of the line. -/
lemma expand_step_some (env : Env) (line : String) (prev : Option String)
    (st : String × Option String)
    (h : expand_step env (line, prev) = some st) :
    ∃ a, env.click_config.aliases.find?
        (fun al => al.alias_name == first_word line) = some a ∧
      st = (a.expanded ++ rest_after_word line, some a.alias_name) := by
  unfold expand_step try_expand_alias at h
  by_cases hguard : (prev.filter (fun pw => pw == first_word line)).isNone
  · rw [if_pos hguard] at h
    cases hf : env.click_config.aliases.find?
        (fun al => al.alias_name == first_word line) with
    | some a =>
      rw [hf] at h
      simp only [Option.some.injEq] at h
      exact ⟨a, rfl, h.symm⟩
    | none =>
      rw [hf] at h
      simp at h
  · rw [if_neg hguard] at h
    simp at h

/-- C2, amended: the caller's repeated expansion terminates — within two
iterations — for every alias set in which no alias's expansion begins with a
*different* alias's name; the single-previous-word guard does not prevent
longer alias cycles (see `C2_counterexample`). -/
theorem C2_amended_guarded_termination (env : Env) (line : String)
    (h : guarded_aliases env.click_config.aliases) :
    ∃ n, n ≤ 2 ∧ expand_halts env line n := by
  cases h1 : expand_step env (line, none) with
  | none =>
    refine ⟨1, by omega, ?_⟩
    unfold expand_halts expand_run expand_run
    rw [Option.some_bind, h1]
  | some st1 =>
    obtain ⟨a, hfind, hst⟩ := expand_step_some env line none st1 h1
    have hmem : a ∈ env.click_config.aliases := List.mem_of_find?_eq_some hfind
    have hname := List.find?_some hfind
    have hword : first_word (a.expanded ++ rest_after_word line) =
        first_word a.expanded := by
      apply first_word_append
      exact rest_after_word_ws line
    have h2 : expand_step env st1 = none := by
      rw [hst]
      unfold expand_step try_expand_alias
      rcases h a hmem with hself | hnone
      · have hguard : ((some a.alias_name).filter
            (fun pw => pw == first_word (a.expanded ++ rest_after_word line))).isNone = false := by
          simp [Option.filter, hword, hself]
        rw [if_neg (by rw [hguard]; exact Bool.false_ne_true)]
      · have hfind2 : env.click_config.aliases.find?
            (fun al => al.alias_name ==
              first_word (a.expanded ++ rest_after_word line)) = none := by
          rw [List.find?_eq_none]
          intro b hb
          simp [hword, hnone b hb]
        by_cases hguard : ((some a.alias_name).filter
            (fun pw => pw == first_word (a.expanded ++ rest_after_word line))).isNone
        · rw [if_pos hguard, hfind2]
        · rw [if_neg hguard]
    refine ⟨2, by omega, ?_⟩
    unfold expand_halts expand_run expand_run expand_run
    rw [Option.some_bind, h1, Option.some_bind, h2]

/-- An environment holding the single alias `g → get pods`. -/
def envAliasG : Env :=
  mkTestEnv [{ alias_name := "g", expanded := "get pods" }]

/-- Concrete instance of `C2_amended_guarded_termination`: with the single
alias `g → get pods`, expanding the line `g -o wide` stops within two
iterations. -/
theorem C2_witness :
    guarded_aliases envAliasG.click_config.aliases ∧
    ∃ n, n ≤ 2 ∧ expand_halts envAliasG "g -o wide" n :=
  ⟨by unfold guarded_aliases; decide,
   C2_amended_guarded_termination envAliasG "g -o wide"
     (by unfold guarded_aliases; decide)⟩

/-- Whether a list has been recorded at all. -/
def is_recorded : LastList → Bool
  | LastList.None => false
  | _ => true

/-- Whether `num` is a valid index into the recorded list. -/
def in_range (l : LastList) (num : Nat) : Bool :=
  match l with
  | LastList.None => false
  | LastList.PodList pl => (pl.items[num]?).isSome
  | LastList.NodeList nl => (nl.items[num]?).isSome
  | LastList.DeploymentList dl => (dl.items[num]?).isSome
  | LastList.ServiceList sl => (sl.items[num]?).isSome
  | LastList.ReplicaSetList rsl => (rsl.items[num]?).isSome
  | LastList.StatefulSetList stfs => (stfs.items[num]?).isSome
  | LastList.ConfigMapList cml => (cml.items[num]?).isSome
  | LastList.SecretList sl => (sl.items[num]?).isSome
  | LastList.JobList jl => (jl.items[num]?).isSome

/-- Whether the item at index `num` carries its identity name — always true
for the fixed-field kinds, a lookup for the structured kinds. -/
def has_name_at (l : LastList) (num : Nat) : Bool :=
  match l with
  | LastList.None => false
  | LastList.PodList pl => (pl.items[num]?).isSome
  | LastList.NodeList nl => (nl.items[num]?).isSome
  | LastList.DeploymentList dl => (dl.items[num]?).isSome
  | LastList.ServiceList sl => (sl.items[num]?).isSome
  | LastList.ReplicaSetList rsl =>
      match rsl.items[num]? with
      | some v => (val_str_opt "/metadata/name" v).isSome
      | none => false
  | LastList.StatefulSetList stfs =>
      match stfs.items[num]? with
      | some v => (val_str_opt "/metadata/name" v).isSome
      | none => false
  | LastList.ConfigMapList cml =>
      match cml.items[num]? with
      | some v => (val_str_opt "/metadata/name" v).isSome
      | none => false
  | LastList.SecretList sl =>
      match sl.items[num]? with
      | some v => (val_str_opt "/metadata/name" v).isSome
      | none => false
  | LastList.JobList jl =>
      match jl.items[num]? with
      | some v => (val_str_opt "/metadata/name" v).isSome
      | none => false

/-- Follows the spec's words (not the source): the selection `obj`/`ns`
carries exactly the identity fields of the item at index `num` of the
recorded list — the name, the namespace where applicable, and the ordered
container names for a pod. -/
def identity_matches (l : LastList) (num : Nat) (obj : KObj)
    (ns : Option String) : Bool :=
  match l with
  | LastList.None => false
  | LastList.PodList pl =>
      match pl.items[num]? with
      | some pod =>
          (obj == KObj.Pod pod.metadata.name
            (pod.spec.containers.map (fun cspec => cspec.name))) &&
          (ns == pod.metadata.namespace_)
      | none => false
  | LastList.NodeList nl =>
      match nl.items[num]? with
      | some nd => obj == KObj.Node nd.metadata.name
      | none => false
  | LastList.DeploymentList dl =>
      match dl.items[num]? with
      | some dep =>
          (obj == KObj.Deployment dep.metadata.name) &&
          (ns == dep.metadata.namespace_)
      | none => false
  | LastList.ServiceList sl =>
      match sl.items[num]? with
      | some service =>
          (obj == KObj.Service service.metadata.name) &&
          (ns == service.metadata.namespace_)
      | none => false
  | LastList.ReplicaSetList rsl =>
      match rsl.items[num]? with
      | some v =>
          match val_str_opt "/metadata/name" v with
          | some name =>
              (obj == KObj.ReplicaSet name) &&
              (ns == val_str_opt "/metadata/namespace" v)
          | none => false
      | none => false
  | LastList.StatefulSetList stfs =>
      match stfs.items[num]? with
      | some v =>
          match val_str_opt "/metadata/name" v with
          | some name =>
              (obj == KObj.StatefulSet name) &&
              (ns == val_str_opt "/metadata/namespace" v)
          | none => false
      | none => false
  | LastList.ConfigMapList cml =>
      match cml.items[num]? with
      | some v =>
          match val_str_opt "/metadata/name" v with
          | some name =>
              (obj == KObj.ConfigMap name) &&
              (ns == val_str_opt "/metadata/namespace" v)
          | none => false
      | none => false
  | LastList.SecretList sl =>
      match sl.items[num]? with
      | some v =>
          match val_str_opt "/metadata/name" v with
          | some name =>
              (obj == KObj.Secret name) &&
              (ns == val_str_opt "/metadata/namespace" v)
          | none => false
      | none => false
  | LastList.JobList jl =>
      match jl.items[num]? with
      | some v =>
          match val_str_opt "/metadata/name" v with
          | some name =>
              (obj == KObj.Job name) &&
              (ns == val_str_opt "/metadata/namespace" v)
          | none => false
      | none => false

/-- A recorded replica-set list whose only item is missing its metadata
name. -/
def envRSnoName : Env :=
  { mkTestEnv [] with
      last_objs :=
        LastList.ReplicaSetList
          { items := [{ metadata_name := none, metadata_namespace := none }] } }

/-- C4, counterexample: index 0 is valid for the recorded replica-set list,
yet because the item is missing its metadata name the selection is cleared
instead of being populated with the item's identity fields — so "valid index
implies identity fields equal" fails as stated. -/
theorem C4_counterexample :
    in_range envRSnoName.last_objs 0 = true ∧
    identity_matches envRSnoName.last_objs 0
      (set_current envRSnoName 0).current_object
      (set_current envRSnoName 0).current_object_namespace = false ∧
    (set_current envRSnoName 0).current_object = KObj.None :=
  ⟨by decide, by decide, by decide⟩

/-- C4, amended: after `recordList(L)`, `selectByIndex(i)` yields a Selected
Object whose identity fields equal those of `L[i]` whenever `i` is valid and
`L[i]` carries its name (always true for the fixed-field kinds); a valid
index whose item is missing its name, and an out-of-range index, both clear
the Selected Object to empty, and neither is an error. -/
theorem C4_amended_select_by_index (env : Env) (num : Nat) :
    (has_name_at env.last_objs num = true →
      identity_matches env.last_objs num (set_current env num).current_object
        (set_current env num).current_object_namespace = true) ∧
    (in_range env.last_objs num = true →
      has_name_at env.last_objs num = false →
      (set_current env num).current_object = KObj.None) ∧
    (is_recorded env.last_objs = true →
      in_range env.last_objs num = false →
      (set_current env num).current_object = KObj.None) := by
  have hobj : (set_current env num).current_object =
      (set_current_obj env num).current_object := rfl
  have hns : (set_current env num).current_object_namespace =
      (set_current_obj env num).current_object_namespace := rfl
  rw [hobj, hns]
  refine ⟨?_, ?_, ?_⟩
  · intro h
    rcases hl : env.last_objs with _ | pl | nl | dl | sl | rsl | stfs | cml | sec | jl <;>
      rw [hl] at h <;>
      simp only [set_current_obj, has_name_at, identity_matches, hl] at h ⊢
    · exact absurd h (by simp)
    · cases hg : pl.items[num]? with
      | some pod => simp [hg]
      | none => simp [hg] at h
    · cases hg : nl.items[num]? with
      | some nd => simp [hg]
      | none => simp [hg] at h
    · cases hg : dl.items[num]? with
      | some dep => simp [hg]
      | none => simp [hg] at h
    · cases hg : sl.items[num]? with
      | some service => simp [hg]
      | none => simp [hg] at h
    · cases hg : rsl.items[num]? with
      | some v =>
          simp only [hg] at h ⊢
          cases hn : val_str_opt "/metadata/name" v with
          | some name => simp [hn]
          | none => simp [hn] at h
      | none => simp [hg] at h
    · cases hg : stfs.items[num]? with
      | some v =>
          simp only [hg] at h ⊢
          cases hn : val_str_opt "/metadata/name" v with
          | some name => simp [hn]
          | none => simp [hn] at h
      | none => simp [hg] at h
    · cases hg : cml.items[num]? with
      | some v =>
          simp only [hg] at h ⊢
          cases hn : val_str_opt "/metadata/name" v with
          | some name => simp [hn]
          | none => simp [hn] at h
      | none => simp [hg] at h
    · cases hg : sec.items[num]? with
      | some v =>
          simp only [hg] at h ⊢
          cases hn : val_str_opt "/metadata/name" v with
          | some name => simp [hn]
          | none => simp [hn] at h
      | none => simp [hg] at h
    · cases hg : jl.items[num]? with
      | some v =>
          simp only [hg] at h ⊢
          cases hn : val_str_opt "/metadata/name" v with
          | some name => simp [hn]
          | none => simp [hn] at h
      | none => simp [hg] at h
  · intro h1 h2
    rcases hl : env.last_objs with _ | pl | nl | dl | sl | rsl | stfs | cml | sec | jl <;>
      rw [hl] at h1 h2 <;>
      simp only [set_current_obj, in_range, has_name_at, hl] at h1 h2 ⊢
    · exact absurd h1 (by simp)
    · exact absurd h2 (by simp [h1])
    · exact absurd h2 (by simp [h1])
    · exact absurd h2 (by simp [h1])
    · exact absurd h2 (by simp [h1])
    · cases hg : rsl.items[num]? with
      | some v =>
          simp only [hg] at h2 ⊢
          cases hn : val_str_opt "/metadata/name" v with
          | some name => simp [hn] at h2
          | none => simp [hn]
      | none => simp [hg] at h1
    · cases hg : stfs.items[num]? with
      | some v =>
          simp only [hg] at h2 ⊢
          cases hn : val_str_opt "/metadata/name" v with
          | some name => simp [hn] at h2
          | none => simp [hn]
      | none => simp [hg] at h1
    · cases hg : cml.items[num]? with
      | some v =>
          simp only [hg] at h2 ⊢
          cases hn : val_str_opt "/metadata/name" v with
          | some name => simp [hn] at h2
          | none => simp [hn]
      | none => simp [hg] at h1
    · cases hg : sec.items[num]? with
      | some v =>
          simp only [hg] at h2 ⊢
          cases hn : val_str_opt "/metadata/name" v with
          | some name => simp [hn] at h2
          | none => simp [hn]
      | none => simp [hg] at h1
    · cases hg : jl.items[num]? with
      | some v =>
          simp only [hg] at h2 ⊢
          cases hn : val_str_opt "/metadata/name" v with
          | some name => simp [hn] at h2
          | none => simp [hn]
      | none => simp [hg] at h1
  · intro h1 h2
    rcases hl : env.last_objs with _ | pl | nl | dl | sl | rsl | stfs | cml | sec | jl <;>
      rw [hl] at h1 h2 <;>
      simp only [set_current_obj, is_recorded, in_range, hl] at h1 h2 ⊢
    · exact absurd h1 (by simp)
    · cases hg : pl.items[num]? with
      | some pod => simp [hg] at h2
      | none => simp [hg]
    · cases hg : nl.items[num]? with
      | some nd => simp [hg] at h2
      | none => simp [hg]
    · cases hg : dl.items[num]? with
      | some dep => simp [hg] at h2
      | none => simp [hg]
    · cases hg : sl.items[num]? with
      | some service => simp [hg] at h2
      | none => simp [hg]
    · cases hg : rsl.items[num]? with
      | some v => simp [hg] at h2
      | none => simp [hg]
    · cases hg : stfs.items[num]? with
      | some v => simp [hg] at h2
      | none => simp [hg]
    · cases hg : cml.items[num]? with
      | some v => simp [hg] at h2
      | none => simp [hg]
    · cases hg : sec.items[num]? with
      | some v => simp [hg] at h2
      | none => simp [hg]
    · cases hg : jl.items[num]? with
      | some v => simp [hg] at h2
      | none => simp [hg]

/-- A recorded pod list with one fully-populated pod. -/
def envPods : Env :=
  { mkTestEnv [] with
      last_objs :=
        LastList.PodList
          { items := [{ metadata := { name := "p1", namespace_ := some "ns1" },
                        spec := { containers := [{ name := "c1" }] } }] } }

/-- Concrete instances of `C4_amended_select_by_index`: a valid named pod
selection captures its identity fields; a valid index at a nameless item,
and an out-of-range index, both clear the selection. -/
theorem C4_witness :
    (has_name_at envPods.last_objs 0 = true ∧
      identity_matches envPods.last_objs 0
        (set_current envPods 0).current_object
        (set_current envPods 0).current_object_namespace = true) ∧
    (in_range envRSnoName.last_objs 0 = true ∧
      has_name_at envRSnoName.last_objs 0 = false ∧
      (set_current envRSnoName 0).current_object = KObj.None) ∧
    (is_recorded envPods.last_objs = true ∧
      in_range envPods.last_objs 5 = false ∧
      (set_current envPods 5).current_object = KObj.None) :=
  ⟨⟨by decide, (C4_amended_select_by_index envPods 0).1 (by decide)⟩,
   ⟨by decide, by decide,
    (C4_amended_select_by_index envRSnoName 0).2.1 (by decide) (by decide)⟩,
   ⟨by decide, by decide,
    (C4_amended_select_by_index envPods 5).2.2 (by decide) (by decide)⟩⟩

end Click
